import Mathlib

/-!
# AppHub persistence layer (db.go)

A shallow embedding of the data-access functions of db.go over an explicit
model of the SQLite database they talk to, followed by theorems about the
find-or-create flow of createPackage, the alias retry loop of
ensureInsertApp, the error classification of isAppAliasUniqueError, and the
read and delete operations.

## Conventions

* The Go functions are translated statement by statement.  A function that
  takes the receiver db reads and writes a World and returns the new World
  next to its Go results.  createPackage is written as its three blocks
  ("fetch app", "fetch version", "create package"), composed in order.
* Everything the functions reach outside db.go is part of the environment:
  the row types, the tables with their constraints, the view detail_version,
  randomStr and the clock.  The definitions that stand for it say
  "Modelled from the spec" or name the library call they stand for.
* A World holds the three tables, the list of failures the storage engine is
  going to report, the list of strings randomStr is going to return, and the
  log of the statements issued.  The engine is healthy when the list of
  failures is empty.  The log makes the statements a call issued, and the
  arguments bound to them, observable.
* A pointer result that may be nil is an Option, a (value, error) result is
  an Except, an error result is an Option Error.
* ensureInsertApp draws one string per round of its loop.  Its value is none
  when the strings run out before the loop ends; the theorems about a call
  that returns say which strings are enough.
* The two readings of time.Now() in createPackage are arguments, in
  nanoseconds since the epoch.
-/

namespace AppHub

/-! ## Row types -/

/-- Modelled from the spec: the App row type, declared outside db.go.
Fields follow the table app(id PK, alias UNIQUE, name, platform, bundle_id).
The default value of every field is the Go zero value. -/
structure App where
  ID : Nat := 0
  Alias : String := ""
  Name : String := ""
  Platform : String := ""
  BundleID : String := ""
deriving DecidableEq, Repr

/-- Modelled from the spec: the Version row type, declared outside db.go.
Fields follow the table version(id PK, version, app_id FK, android_version_code,
android_version_name, ios_short_version, ios_bundle_version, sort_key, remark). -/
structure Version where
  ID : Nat := 0
  Version : String := ""
  AppID : Nat := 0
  AndroidVersionCode : String := ""
  AndroidVersionName : String := ""
  IOSShortVersion : String := ""
  IOSBundleVersion : String := ""
  SortKey : Nat := 0
  Remark : String := ""
deriving DecidableEq, Repr

/-- Modelled from the spec: the Package row type, declared outside db.go.
Fields follow the table package(id PK, version_id FK, name, size, created_at,
remark).  A time.Time value is a number of nanoseconds since the epoch. -/
structure Package where
  ID : String := ""
  VersionID : Nat := 0
  Name : String := ""
  Size : Nat := 0
  CreatedAt : Nat := 0
  Remark : String := ""
deriving DecidableEq, Repr

/-- Modelled from the spec: the parsed manifest parser.AppInfo, a value of an
external package.  FullVersion() is a method of that package; its result is
carried as a field. -/
structure AppInfo where
  Name : String := ""
  Platform : String := ""
  BundleID : String := ""
  FullVersion : String := ""
  AndroidVersionName : String := ""
  AndroidVersionCode : String := ""
  IOSShortVersion : String := ""
  IOSBundleVersion : String := ""
  Size : Nat := 0
deriving DecidableEq, Repr

/-- Modelled from the spec: the DetailVersion projection, declared outside
db.go.  It carries the Version fields; the derived display data joined to
them by the view is not described by the spec and is left out. -/
structure DetailVersion where
  ID : Nat := 0
  Version : String := ""
  AppID : Nat := 0
  AndroidVersionCode : String := ""
  AndroidVersionName : String := ""
  IOSShortVersion : String := ""
  IOSBundleVersion : String := ""
  SortKey : Nat := 0
  Remark : String := ""
deriving DecidableEq, Repr

/-! ## Errors -/

/-- Error values seen by db.go: the sentinel sql.ErrNoRows, a sqlite3.Error
(its extended result code and its message), any other error value, and an
error wrapped with a context message by errors.Wrap. -/
inductive Error where
  | errNoRows : Error
  | sqlite (extendedCode : Nat) (msg : String) : Error
  | other (msg : String) : Error
  | wrap (cause : Error) (msg : String) : Error
deriving DecidableEq, Repr

/-- The extended result code sqlite3.ErrConstraintUnique (19 | 8 <<< 8). -/
def ErrConstraintUnique : Nat := 2067

/-- The extended result code sqlite3.ErrConstraintPrimaryKey (19 | 6 <<< 8). -/
def ErrConstraintPrimaryKey : Nat := 1555

/-- The extended result code sqlite3.ErrConstraintForeignKey (19 | 3 <<< 8). -/
def ErrConstraintForeignKey : Nat := 787

/-- The extended result code SQLITE_IOERR, used as an example of a storage
failure that is not a constraint violation. -/
def ErrIoErr : Nat := 10

/-- The result of err.Error(). -/
def Error.message : Error → String
  | Error.errNoRows => "sql: no rows in result set"
  | Error.sqlite _ msg => msg
  | Error.other msg => msg
  | Error.wrap cause msg => msg ++ ": " ++ Error.message cause

/-- Substring test on character lists. -/
def containsChars (sub : List Char) : List Char → Bool
  | [] => sub.isEmpty
  | c :: cs => sub.isPrefixOf (c :: cs) || containsChars sub cs

/-- The Go function strings.Contains. -/
def stringsContains (s sub : String) : Bool :=
  containsChars sub.data s.data

/-- The function isAppAliasUniqueError of db.go: the type assertion to
sqlite3.Error succeeds only for a sqlite error value. -/
def isAppAliasUniqueError (err : Error) : Bool :=
  match err with
  | Error.sqlite extendedCode _ =>
    (extendedCode == ErrConstraintUnique || extendedCode == ErrConstraintPrimaryKey)
      && stringsContains (Error.message err) "app.alias"
  | _ => false

/-! ## The database -/

/-- The three tables, each a list of rows in insertion (rowid) order. -/
structure Store where
  apps : List App := []
  versions : List Version := []
  packages : List Package := []
deriving DecidableEq, Repr

/-- The statements db.go sends to the database, with their bound arguments. -/
inductive Query where
  | selectApp (bundleID platform : String) : Query
  | insertApp (row : App) : Query
  | selectVersion (version : String) (appID : Nat) : Query
  | insertVersion (row : Version) : Query
  | insertPackage (row : Package) : Query
  | selectPackage (id : String) : Query
  | deletePackage (id : String) : Query
  | selectDetailVersions (appID : Nat) : Query
  | selectVersionPackages (versionID : Nat) : Query
deriving DecidableEq, Repr

/-- Everything outside the program: the tables, the failures the storage
engine is going to report (one entry per statement still to come, none for a
statement that runs normally; an exhausted list means a healthy engine), the
strings randomStr is going to return, and the statements issued so far. -/
structure World where
  store : Store := {}
  faults : List (Option Error) := []
  aliases : List String := []
  log : List Query := []
deriving DecidableEq, Repr

/-- Send one statement: it is recorded, and the engine either reports the
failure scheduled for it or lets it run. -/
def World.issue (w : World) (q : Query) : Option Error × World :=
  match w.faults with
  | [] => (none, { w with log := w.log ++ [q] })
  | f :: fs => (f, { w with faults := fs, log := w.log ++ [q] })

/-- The id SQLite gives a new row of an integer primary key table: one more
than the largest id in the table. -/
def nextID (ids : List Nat) : Nat :=
  ids.foldr max 0 + 1

/-- The error SQLite reports for a UNIQUE constraint on the given column. -/
def uniqueFailed (column : String) : Error :=
  Error.sqlite ErrConstraintUnique ("UNIQUE constraint failed: " ++ column)

/-- The error SQLite reports for a PRIMARY KEY constraint on the given column. -/
def primaryKeyFailed (column : String) : Error :=
  Error.sqlite ErrConstraintPrimaryKey ("UNIQUE constraint failed: " ++ column)

/-- The error SQLite reports for a violated foreign key. -/
def foreignKeyFailed : Error :=
  Error.sqlite ErrConstraintForeignKey "FOREIGN KEY constraint failed"

/-- Modelled from the spec: the table app(id PK, alias UNIQUE, name, platform,
bundle_id), whose schema is not in db.go.  An insert of (alias, name,
platform, bundle_id) fails when the alias is taken and otherwise appends the
row under a generated id, which is returned. -/
def Store.insertApp (s : Store) (row : App) : Except Error (Nat × Store) :=
  if s.apps.any (fun a => decide (a.Alias = row.Alias)) then
    Except.error (uniqueFailed "app.alias")
  else
    let id := nextID (s.apps.map App.ID)
    Except.ok (id, { s with apps := s.apps ++ [{ row with ID := id }] })

/-- Modelled from the spec: the table version(id PK, ..., app_id FK to app,
...), whose schema is not in db.go; foreign keys are enforced (initDB opens
the database with _foreign_keys=true).  An insert fails when app_id names no
App row and otherwise appends the row under a generated id, which is
returned. -/
def Store.insertVersion (s : Store) (row : Version) : Except Error (Nat × Store) :=
  if s.apps.any (fun a => decide (a.ID = row.AppID)) then
    let id := nextID (s.versions.map Version.ID)
    Except.ok (id, { s with versions := s.versions ++ [{ row with ID := id }] })
  else
    Except.error foreignKeyFailed

/-- Modelled from the spec: the table package(id PK, version_id FK to version,
...), whose schema is not in db.go.  An insert fails when the id is taken or
when version_id names no Version row, and otherwise appends the row. -/
def Store.insertPackage (s : Store) (row : Package) : Except Error Store :=
  if s.packages.any (fun p => decide (p.ID = row.ID)) then
    Except.error (primaryKeyFailed "package.id")
  else if s.versions.any (fun v => decide (v.ID = row.VersionID)) then
    Except.ok { s with packages := s.packages ++ [row] }
  else
    Except.error foreignKeyFailed

/-- The call db.Get(app, "select * from app where bundle_id = $1 and
platform = $2", ...): the first matching row, or sql.ErrNoRows. -/
def dbGetApp (w : World) (bundleID platform : String) : Except Error App × World :=
  match w.issue (Query.selectApp bundleID platform) with
  | (some e, w1) => (Except.error e, w1)
  | (none, w1) =>
    match w1.store.apps.find? (fun a => decide (a.BundleID = bundleID ∧ a.Platform = platform)) with
    | some row => (Except.ok row, w1)
    | none => (Except.error Error.errNoRows, w1)

/-- The call db.NamedExec("insert into app(alias, name, platform, bundle_id)
values(...)", app); the value is the LastInsertId of the result. -/
def dbInsertApp (w : World) (row : App) : Except Error Nat × World :=
  match w.issue (Query.insertApp row) with
  | (some e, w1) => (Except.error e, w1)
  | (none, w1) =>
    match w1.store.insertApp row with
    | Except.error e => (Except.error e, w1)
    | Except.ok (id, s) => (Except.ok id, { w1 with store := s })

/-- The call db.Get(version, "select * from version where version = $1 and
app_id = $2", ...): the first matching row, or sql.ErrNoRows. -/
def dbGetVersion (w : World) (version : String) (appID : Nat) : Except Error Version × World :=
  match w.issue (Query.selectVersion version appID) with
  | (some e, w1) => (Except.error e, w1)
  | (none, w1) =>
    match w1.store.versions.find? (fun v => decide (v.Version = version ∧ v.AppID = appID)) with
    | some row => (Except.ok row, w1)
    | none => (Except.error Error.errNoRows, w1)

/-- The call db.NamedExec("insert into version(...) values(...)", version);
the value is the LastInsertId of the result. -/
def dbInsertVersion (w : World) (row : Version) : Except Error Nat × World :=
  match w.issue (Query.insertVersion row) with
  | (some e, w1) => (Except.error e, w1)
  | (none, w1) =>
    match w1.store.insertVersion row with
    | Except.error e => (Except.error e, w1)
    | Except.ok (id, s) => (Except.ok id, { w1 with store := s })

/-- The call db.NamedExec("insert into package(...) values(...)", pkg). -/
def dbInsertPackage (w : World) (row : Package) : Option Error × World :=
  match w.issue (Query.insertPackage row) with
  | (some e, w1) => (some e, w1)
  | (none, w1) =>
    match w1.store.insertPackage row with
    | Except.error e => (some e, w1)
    | Except.ok s => (none, { w1 with store := s })

/-- The call db.Get(pkg, "select * from package where id = $1", id). -/
def dbGetPackage (w : World) (id : String) : Except Error Package × World :=
  match w.issue (Query.selectPackage id) with
  | (some e, w1) => (Except.error e, w1)
  | (none, w1) =>
    match w1.store.packages.find? (fun p => decide (p.ID = id)) with
    | some row => (Except.ok row, w1)
    | none => (Except.error Error.errNoRows, w1)

/-- The call db.Exec("delete from package where id = $1", id): every row with
that id goes; no other table refers to a package row. -/
def dbDeletePackage (w : World) (id : String) : Option Error × World :=
  match w.issue (Query.deletePackage id) with
  | (some e, w1) => (some e, w1)
  | (none, w1) =>
    (none, { w1 with store :=
      { w1.store with packages := w1.store.packages.filter (fun p => decide (p.ID ≠ id)) } })

/-- Modelled from the spec: the projection of a Version row in the view
detail_version. -/
def toDetailVersion (v : Version) : DetailVersion :=
  { ID := v.ID
    Version := v.Version
    AppID := v.AppID
    AndroidVersionCode := v.AndroidVersionCode
    AndroidVersionName := v.AndroidVersionName
    IOSShortVersion := v.IOSShortVersion
    IOSBundleVersion := v.IOSBundleVersion
    SortKey := v.SortKey
    Remark := v.Remark }

/-- Modelled from the spec: the rows of the view detail_version, whose SQL
definition is not in db.go.  The spec describes the view as the Version fields
joined with derived display data and gives the view itself no order: it has
one row per Version row, read in the order of the version table. -/
def detailVersionView (s : Store) : List DetailVersion :=
  s.versions.map toDetailVersion

/-- The call db.Select(&versions, "select * from detail_version where
app_id = $1", appID): the statement has no ORDER BY, so the rows of the view
that match come back in the order of the view. -/
def dbSelectDetailVersions (w : World) (appID : Nat) : Except Error (List DetailVersion) × World :=
  match w.issue (Query.selectDetailVersions appID) with
  | (some e, w1) => (Except.error e, w1)
  | (none, w1) =>
    (Except.ok ((detailVersionView w1.store).filter (fun d => decide (d.AppID = appID))), w1)

/-- Insertion of a package into a list ordered by created_at descending. -/
def insertByCreatedAt (p : Package) : List Package → List Package
  | [] => [p]
  | x :: xs => if x.CreatedAt ≤ p.CreatedAt then p :: x :: xs else x :: insertByCreatedAt p xs

/-- The call db.Select(&pkgs, "select * from package where version_id = $1
order by created_at desc", versionID). -/
def dbSelectVersionPackages (w : World) (versionID : Nat) : Except Error (List Package) × World :=
  match w.issue (Query.selectVersionPackages versionID) with
  | (some e, w1) => (Except.error e, w1)
  | (none, w1) =>
    (Except.ok ((w1.store.packages.filter (fun p => decide (p.VersionID = versionID))).foldr
      insertByCreatedAt []), w1)

/-! ## The functions of db.go -/

/-- The method Unix of time.Time: whole seconds since the epoch. -/
def unixSeconds (t : Nat) : Nat :=
  t / 1000000000

/-- The function getPackage: nil only when the lookup reports sql.ErrNoRows;
after any other outcome the pointer to pkg is returned. -/
def getPackage (w : World) (id : String) : Option Package × World :=
  let pkg : Package := {}
  match dbGetPackage w id with
  | (Except.ok row, w1) => (some row, w1)
  | (Except.error err, w1) =>
    if err = Error.errNoRows then (none, w1) else (some pkg, w1)

/-- The function insertApp: the result of the statement is dropped and only
the error is returned, so app is not written to. -/
def insertApp (w : World) (app : App) : Option Error × World :=
  match dbInsertApp w app with
  | (Except.error err, w1) => (some err, w1)
  | (Except.ok _, w1) => (none, w1)

/-- The loop of ensureInsertApp, one round per string still to be returned by
randomStr (the first argument, which is the list held by the world): draw an
alias, try the insert, stop on success or on an error that is not an alias
collision.  The value is none when the strings run out before the loop ends. -/
def ensureInsertAppLoop : List String → World → App → Option (Option Error × App × World)
  | [], _, _ => none
  | a :: rest, w, app =>
    let app1 := { app with Alias := a }
    match insertApp { w with aliases := rest } app1 with
    | (none, w1) => some (none, app1, w1)
    | (some err, w1) =>
      if isAppAliasUniqueError err then ensureInsertAppLoop rest w1 app1
      else some (some err, app1, w1)

/-- The function ensureInsertApp; the App in the value is app as the loop
left it. -/
def ensureInsertApp (w : World) (app : App) : Option (Option Error × App × World) :=
  ensureInsertAppLoop w.aliases w app

/-- The block "fetch app" of createPackage: the App record the rest of the
function works with.  An error of the lookup other than sql.ErrNoRows is not
examined, and app stays as it was. -/
def fetchApp (w : World) (info : AppInfo) : Option (Except Error App × World) :=
  let app : App := {}
  match dbGetApp w info.BundleID info.Platform with
  | (Except.ok row, w1) => some (Except.ok row, w1)
  | (Except.error err, w1) =>
    if err = Error.errNoRows then
      let app1 := { app with Name := info.Name, Platform := info.Platform, BundleID := info.BundleID }
      match ensureInsertApp w1 app1 with
      | none => none
      | some (some err1, _, w2) => some (Except.error (Error.wrap err1 "could not insert app"), w2)
      | some (none, app2, w2) => some (Except.ok app2, w2)
    else some (Except.ok app, w1)

/-- The block "fetch version" of createPackage; now is the reading of
time.Now() taken when a Version is created. -/
def fetchVersion (w : World) (info : AppInfo) (app : App) (versionRemark : String) (now : Nat) :
    Except Error Version × World :=
  let version : Version := {}
  match dbGetVersion w info.FullVersion app.ID with
  | (Except.ok row, w1) => (Except.ok row, w1)
  | (Except.error err, w1) =>
    if err = Error.errNoRows then
      let version1 : Version :=
        { version with
          Version := info.FullVersion
          AppID := app.ID
          AndroidVersionName := info.AndroidVersionName
          AndroidVersionCode := info.AndroidVersionCode
          IOSShortVersion := info.IOSShortVersion
          IOSBundleVersion := info.IOSBundleVersion
          SortKey := unixSeconds now
          Remark := versionRemark }
      match dbInsertVersion w1 version1 with
      | (Except.error err1, w2) => (Except.error (Error.wrap err1 "could not insert version"), w2)
      | (Except.ok id, w2) => (Except.ok { version1 with ID := id }, w2)
    else (Except.ok version, w1)

/-- The block "create package" of createPackage; now is the reading of
time.Now() stored in created_at. -/
def createPackageRecord (w : World) (info : AppInfo) (version : Version)
    (fileName pkgRemark pkgID : String) (now : Nat) : Except Error Package × World :=
  let pkg : Package :=
    { ID := pkgID
      VersionID := version.ID
      Name := fileName
      Size := info.Size
      CreatedAt := now
      Remark := pkgRemark }
  match dbInsertPackage w pkg with
  | (some err, w1) => (Except.error (Error.wrap err "could not insert package"), w1)
  | (none, w1) => (Except.ok pkg, w1)

/-- The function createPackage: the three blocks in order, each error return
ending the call.  nowVersion and nowPkg are the two readings of time.Now(). -/
def createPackage (w : World) (info : AppInfo) (fileName versionRemark pkgRemark pkgID : String)
    (nowVersion nowPkg : Nat) : Option (Except Error Package × World) :=
  match fetchApp w info with
  | none => none
  | some (Except.error err, w1) => some (Except.error err, w1)
  | some (Except.ok app, w1) =>
    match fetchVersion w1 info app versionRemark nowVersion with
    | (Except.error err, w2) => some (Except.error err, w2)
    | (Except.ok version, w2) => some (createPackageRecord w2 info version fileName pkgRemark pkgID nowPkg)

/-- The function deletePackage. -/
def deletePackage (w : World) (id : String) : Option Error × World :=
  dbDeletePackage w id

/-- The function getAppDetailedVersions, which the comment above it in db.go
describes as "sort by sort_key desc". -/
def getAppDetailedVersions (w : World) (appID : Nat) : Except Error (List DetailVersion) × World :=
  match dbSelectDetailVersions w appID with
  | (Except.error err, w1) => (Except.error err, w1)
  | (Except.ok versions, w1) => (Except.ok versions, w1)

/-- The function getVersionPackages. -/
def getVersionPackages (w : World) (versionID : Nat) : Except Error (List Package) × World :=
  match dbSelectVersionPackages w versionID with
  | (Except.error err, w1) => (Except.error err, w1)
  | (Except.ok pkgs, w1) => (Except.ok pkgs, w1)

/-! ## Concrete data used in the examples -/

/-- The manifest of the upload scenario of the spec. -/
def manifestXY : AppInfo :=
  { Name := "X", Platform := "ios", BundleID := "com.x.y", FullVersion := "1.2.3(45)",
    IOSShortVersion := "1.2.3", IOSBundleVersion := "45", Size := 1000 }

/-- Empty tables, a healthy engine, and randomStr about to return "k3Qz". -/
def emptyWorld : World :=
  { aliases := ["k3Qz"] }

/-- A world for the alias retry: two App rows hold the aliases "aaaa" and
"bbbb", and randomStr is about to return "aaaa", "bbbb", "cccc", "dddd". -/
def retryWorld : World :=
  { store := { apps := [{ ID := 1, Alias := "aaaa", Name := "A", Platform := "ios", BundleID := "com.a" },
                        { ID := 2, Alias := "bbbb", Name := "B", Platform := "android", BundleID := "com.b" }] }
    aliases := ["aaaa", "bbbb", "cccc", "dddd"] }

/-- A world that holds the App of the manifest (id 1), its Version "1.2.3(45)"
(id 1, remark "first") and one Package "pkg-a" of that Version; the engine is
healthy. -/
def uploadedWorld : World :=
  { store :=
      { apps := [{ ID := 1, Alias := "k3Qz", Name := "X", Platform := "ios", BundleID := "com.x.y" }]
        versions := [{ ID := 1, Version := "1.2.3(45)", AppID := 1, IOSShortVersion := "1.2.3",
                       IOSBundleVersion := "45", SortKey := 5, Remark := "first" }]
        packages := [{ ID := "pkg-a", VersionID := 1, Name := "a.ipa", Size := 1000,
                       CreatedAt := 5000000000, Remark := "" }] } }

/-- A world with one App, one Version and three Packages, two of them sharing
nothing with the id "pkg-b". -/
def threePackagesWorld : World :=
  { store :=
      { apps := [{ ID := 1, Alias := "k3Qz", Name := "X", Platform := "ios", BundleID := "com.x.y" }]
        versions := [{ ID := 1, Version := "1.2.3(45)", AppID := 1, SortKey := 5, Remark := "first" }]
        packages := [{ ID := "pkg-a", VersionID := 1, Name := "a.ipa", Size := 1000, CreatedAt := 5 },
                     { ID := "pkg-b", VersionID := 1, Name := "b.ipa", Size := 1000, CreatedAt := 7 },
                     { ID := "pkg-c", VersionID := 1, Name := "c.ipa", Size := 1000, CreatedAt := 9 }] } }

/-- A storage failure that is neither a missing row nor a constraint
violation. -/
def ioFailure : Error :=
  Error.sqlite ErrIoErr "disk I/O error"

/-- The first upload of the scenario of the spec: empty tables, the manifest
of com.x.y, file "a.ipa", package id "pkg-a". -/
def scenarioFirst : Option (Except Error Package × World) :=
  createPackage emptyWorld manifestXY "a.ipa" "" "" "pkg-a" 5000000000 5000000001

/-- The second upload of the scenario: the same manifest, file "b.ipa", the
new package id "pkg-b", two seconds later, on the state the first upload
left. -/
def scenarioSecond : Option (Except Error Package × World) :=
  scenarioFirst.bind (fun first =>
    createPackage first.2 manifestXY "b.ipa" "" "" "pkg-b" 7000000000 7000000001)

/-- The numbers of App, Version and Package rows. -/
def Store.counts (s : Store) : Nat × Nat × Nat :=
  (s.apps.length, s.versions.length, s.packages.length)

/-- The names of the packages in a listing, or none for an error. -/
def packageNames (r : Except Error (List Package)) : Option (List String) :=
  match r with
  | Except.ok pkgs => some (pkgs.map Package.Name)
  | Except.error _ => none

/-- Whether a call returned a Package rather than an error. -/
def succeeded (r : Except Error Package) : Bool :=
  match r with
  | Except.ok _ => true
  | Except.error _ => false

/-- The world of uploadedWorld plus an App "com.b" not yet stored being
uploaded: randomStr is about to return "Zq9a". -/
def secondAppWorld : World :=
  { uploadedWorld with aliases := ["Zq9a"] }

/-- The manifest of an App that uploadedWorld does not hold. -/
def manifestB : AppInfo :=
  { Name := "B", Platform := "android", BundleID := "com.b", FullVersion := "2.0(7)",
    AndroidVersionName := "2.0", AndroidVersionCode := "7", Size := 2000 }

/-- The world of uploadedWorld with an engine that runs the next statement and
fails the one after it with a disk error. -/
def failingLookupWorld : World :=
  { uploadedWorld with faults := [none, some ioFailure] }

/-- Empty tables and an engine that fails the next statement with a disk
error. -/
def failingReadWorld : World :=
  { faults := [some ioFailure] }

/-! # Theorems -/

/-! ## The storage engine when it is healthy -/

theorem issue_healthy (w : World) (q : Query) (h : w.faults = []) :
    w.issue q = (none, { w with log := w.log ++ [q] }) := by
  simp [World.issue, h]

theorem aliasCollision_retryable : isAppAliasUniqueError (uniqueFailed "app.alias") = true := by
  decide

theorem insertApp_taken (w : World) (app : App) (h : w.faults = [])
    (ht : ∃ r ∈ w.store.apps, r.Alias = app.Alias) :
    insertApp w app
      = (some (uniqueFailed "app.alias"), { w with log := w.log ++ [Query.insertApp app] }) := by
  have hany : w.store.apps.any (fun a => decide (a.Alias = app.Alias)) = true := by
    simpa [List.any_eq_true] using ht
  simp [insertApp, dbInsertApp, issue_healthy w _ h, Store.insertApp, hany]

theorem insertApp_fresh (w : World) (app : App) (h : w.faults = [])
    (hn : ∀ r ∈ w.store.apps, r.Alias ≠ app.Alias) :
    insertApp w app
      = (none, { w with
          store := { w.store with
            apps := w.store.apps ++ [{ app with ID := nextID (w.store.apps.map App.ID) }] }
          log := w.log ++ [Query.insertApp app] }) := by
  have hany : w.store.apps.any (fun a => decide (a.Alias = app.Alias)) = false := by
    simpa [List.any_eq_false] using hn
  simp [insertApp, dbInsertApp, issue_healthy w _ h, Store.insertApp, hany]

theorem ensureInsertAppLoop_cons (a : String) (rest : List String) (w : World) (app : App) :
    ensureInsertAppLoop (a :: rest) w app
      = match insertApp { w with aliases := rest } { app with Alias := a } with
        | (none, w1) => some (none, { app with Alias := a }, w1)
        | (some err, w1) =>
          if isAppAliasUniqueError err then ensureInsertAppLoop rest w1 { app with Alias := a }
          else some (some err, { app with Alias := a }, w1) := rfl

theorem ensureInsertAppLoop_converges (fresh : String) (rest : List String) :
    ∀ (taken : List String) (w : World) (app : App), w.faults = [] →
      (∀ a ∈ taken, ∃ r ∈ w.store.apps, r.Alias = a) →
      (∀ r ∈ w.store.apps, r.Alias ≠ fresh) →
      ensureInsertAppLoop (taken ++ fresh :: rest) w app
        = some (none, { app with Alias := fresh },
            { store := { w.store with
                apps := w.store.apps ++
                  [{ app with Alias := fresh, ID := nextID (w.store.apps.map App.ID) }] }
              faults := []
              aliases := rest
              log := w.log ++ (taken ++ [fresh]).map (fun a => Query.insertApp { app with Alias := a }) }) := by
  intro taken
  induction taken with
  | nil =>
    intro w app hf _ hfresh
    have h := insertApp_fresh { w with aliases := rest } { app with Alias := fresh } hf hfresh
    rw [List.nil_append, ensureInsertAppLoop_cons, h]
    simp [hf]
  | cons a as ih =>
    intro w app hf htaken hfresh
    have h := insertApp_taken { w with aliases := as ++ fresh :: rest } { app with Alias := a } hf
      (htaken a (List.mem_cons_self _ _))
    rw [List.cons_append, ensureInsertAppLoop_cons, h]
    simp only [aliasCollision_retryable, if_true]
    rw [ih { w with aliases := as ++ fresh :: rest
                    log := w.log ++ [Query.insertApp { app with Alias := a }] }
      { app with Alias := a } hf (fun b hb => htaken b (List.mem_cons_of_mem _ hb)) hfresh]
    simp

/-- C4, alias retry convergence.  On a healthy engine, when the first N
strings returned by randomStr (taken) are aliases of App rows and the next one
(fresh) is not, ensureInsertApp returns no error; it has made exactly N+1
insert attempts (the statements added to the log, one per string drawn, in
order); the app table has gained exactly one row, appended under a generated
id; the alias of that row and of app is the (N+1)th string; and the strings
after it are still to be drawn. -/
theorem ensureInsertApp_alias_retry_converges (w : World) (app : App)
    (taken : List String) (fresh : String) (rest : List String)
    (hf : w.faults = [])
    (ha : w.aliases = taken ++ fresh :: rest)
    (htaken : ∀ a ∈ taken, ∃ r ∈ w.store.apps, r.Alias = a)
    (hfresh : ∀ r ∈ w.store.apps, r.Alias ≠ fresh) :
    ensureInsertApp w app
        = some (none, { app with Alias := fresh },
            { store := { w.store with
                apps := w.store.apps ++
                  [{ app with Alias := fresh, ID := nextID (w.store.apps.map App.ID) }] }
              faults := []
              aliases := rest
              log := w.log ++ (taken ++ [fresh]).map (fun a => Query.insertApp { app with Alias := a }) })
      ∧ ((taken ++ [fresh]).map (fun a => Query.insertApp { app with Alias := a })).length
          = taken.length + 1 := by
  refine ⟨?_, by simp⟩
  unfold ensureInsertApp
  rw [ha]
  exact ensureInsertAppLoop_converges fresh rest taken w app hf htaken hfresh

/-- Witness for C4 with N = 2: "aaaa" and "bbbb" collide, "cccc" is inserted
under id 3 after three attempts, and "dddd" is not drawn. -/
theorem ensureInsertApp_alias_retry_converges_witness :
    ensureInsertApp retryWorld { Name := "C", Platform := "ios", BundleID := "com.c" }
        = some (none, { Alias := "cccc", Name := "C", Platform := "ios", BundleID := "com.c" },
            { store := { retryWorld.store with
                apps := retryWorld.store.apps ++
                  [{ ID := 3, Alias := "cccc", Name := "C", Platform := "ios", BundleID := "com.c" }] }
              faults := []
              aliases := ["dddd"]
              log := [Query.insertApp { Alias := "aaaa", Name := "C", Platform := "ios", BundleID := "com.c" },
                      Query.insertApp { Alias := "bbbb", Name := "C", Platform := "ios", BundleID := "com.c" },
                      Query.insertApp { Alias := "cccc", Name := "C", Platform := "ios", BundleID := "com.c" }] }) :=
  (ensureInsertApp_alias_retry_converges retryWorld
    { Name := "C", Platform := "ios", BundleID := "com.c" } ["aaaa", "bbbb"] "cccc" ["dddd"]
    rfl rfl (by decide) (by decide)).1

/-! ## What one insert attempt leaves untouched -/

theorem insertApp_frame (w : World) (app : App) :
    (insertApp w app).2.log = w.log ++ [Query.insertApp app]
      ∧ (insertApp w app).2.aliases = w.aliases
      ∧ (insertApp w app).2.faults = w.faults.tail
      ∧ (insertApp w app).2.store.versions = w.store.versions
      ∧ (insertApp w app).2.store.packages = w.store.packages := by
  obtain ⟨s, faults, al, log⟩ := w
  rcases faults with _ | ⟨f, fs⟩
  · by_cases hany : s.apps.any (fun a => decide (a.Alias = app.Alias)) = true
    · simp [insertApp, dbInsertApp, World.issue, Store.insertApp, hany]
    · simp [insertApp, dbInsertApp, World.issue, Store.insertApp, hany]
  · cases f with
    | some e => simp [insertApp, dbInsertApp, World.issue]
    | none =>
      by_cases hany : s.apps.any (fun a => decide (a.Alias = app.Alias)) = true
      · simp [insertApp, dbInsertApp, World.issue, Store.insertApp, hany]
      · simp [insertApp, dbInsertApp, World.issue, Store.insertApp, hany]

/-! ## Classification of insert errors -/

theorem dbGetApp_healthy (w : World) (bundleID platform : String) (hf : w.faults = []) :
    dbGetApp w bundleID platform
      = ((match w.store.apps.find? (fun a => decide (a.BundleID = bundleID ∧ a.Platform = platform)) with
          | some row => Except.ok row
          | none => Except.error Error.errNoRows),
         { w with log := w.log ++ [Query.selectApp bundleID platform] }) := by
  unfold dbGetApp
  rw [issue_healthy w _ hf]
  dsimp only
  split <;> rfl

theorem dbGetVersion_healthy (w : World) (version : String) (appID : Nat) (hf : w.faults = []) :
    dbGetVersion w version appID
      = ((match w.store.versions.find? (fun v => decide (v.Version = version ∧ v.AppID = appID)) with
          | some row => Except.ok row
          | none => Except.error Error.errNoRows),
         { w with log := w.log ++ [Query.selectVersion version appID] }) := by
  unfold dbGetVersion
  rw [issue_healthy w _ hf]
  dsimp only
  split <;> rfl

theorem dbInsertVersion_healthy (w : World) (row : Version) (hf : w.faults = []) :
    dbInsertVersion w row
      = if w.store.apps.any (fun a => decide (a.ID = row.AppID)) then
          (Except.ok (nextID (w.store.versions.map Version.ID)),
            { w with
              store := { w.store with
                versions := w.store.versions ++
                  [{ row with ID := nextID (w.store.versions.map Version.ID) }] }
              log := w.log ++ [Query.insertVersion row] })
        else
          (Except.error foreignKeyFailed, { w with log := w.log ++ [Query.insertVersion row] }) := by
  unfold dbInsertVersion Store.insertVersion
  rw [issue_healthy w _ hf]
  by_cases h : w.store.apps.any (fun a => decide (a.ID = row.AppID)) = true
  · simp [h]
  · simp [h]

theorem dbInsertPackage_healthy (w : World) (row : Package) (hf : w.faults = []) :
    dbInsertPackage w row
      = if w.store.packages.any (fun p => decide (p.ID = row.ID)) then
          (some (primaryKeyFailed "package.id"), { w with log := w.log ++ [Query.insertPackage row] })
        else if w.store.versions.any (fun v => decide (v.ID = row.VersionID)) then
          (none, { w with
            store := { w.store with packages := w.store.packages ++ [row] }
            log := w.log ++ [Query.insertPackage row] })
        else
          (some foreignKeyFailed, { w with log := w.log ++ [Query.insertPackage row] }) := by
  unfold dbInsertPackage Store.insertPackage
  rw [issue_healthy w _ hf]
  by_cases h : w.store.packages.any (fun p => decide (p.ID = row.ID)) = true
  · simp [h]
  · by_cases h2 : w.store.versions.any (fun v => decide (v.ID = row.VersionID)) = true
    · simp [h, h2]
    · simp [h, h2]

theorem fetchApp_found (w : World) (info : AppInfo) (row : App) (hf : w.faults = [])
    (hrow : w.store.apps.find?
      (fun a => decide (a.BundleID = info.BundleID ∧ a.Platform = info.Platform)) = some row) :
    fetchApp w info
      = some (Except.ok row,
          { w with log := w.log ++ [Query.selectApp info.BundleID info.Platform] }) := by
  unfold fetchApp
  rw [dbGetApp_healthy w _ _ hf, hrow]

theorem fetchVersion_found (w : World) (info : AppInfo) (app : App) (versionRemark : String)
    (now : Nat) (v : Version) (hf : w.faults = [])
    (hv : w.store.versions.find?
      (fun v => decide (v.Version = info.FullVersion ∧ v.AppID = app.ID)) = some v) :
    fetchVersion w info app versionRemark now
      = (Except.ok v, { w with log := w.log ++ [Query.selectVersion info.FullVersion app.ID] }) := by
  unfold fetchVersion
  rw [dbGetVersion_healthy w _ _ hf, hv]

theorem fetchVersion_healthy_frame (w : World) (info : AppInfo) (app : App)
    (versionRemark : String) (now : Nat) (hf : w.faults = []) :
    (fetchVersion w info app versionRemark now).2.faults = []
      ∧ (fetchVersion w info app versionRemark now).2.store.apps = w.store.apps
      ∧ (fetchVersion w info app versionRemark now).2.store.packages = w.store.packages
      ∧ (fetchVersion w info app versionRemark now).2.aliases = w.aliases
      ∧ ∃ tail, (fetchVersion w info app versionRemark now).2.log
          = w.log ++ Query.selectVersion info.FullVersion app.ID :: tail := by
  unfold fetchVersion
  rw [dbGetVersion_healthy w _ _ hf]
  cases w.store.versions.find?
      (fun v => decide (v.Version = info.FullVersion ∧ v.AppID = app.ID)) with
  | some v => exact ⟨hf, rfl, rfl, rfl, [], rfl⟩
  | none =>
    simp only [if_true]
    rw [dbInsertVersion_healthy _ _ (show ({ w with
      log := w.log ++ [Query.selectVersion info.FullVersion app.ID] } : World).faults = [] from hf)]
    by_cases h : w.store.apps.any (fun a => decide (a.ID = app.ID)) = true
    · simp [h, hf]
    · simp [h, hf]

theorem createPackageRecord_healthy_frame (w : World) (info : AppInfo) (version : Version)
    (fileName pkgRemark pkgID : String) (now : Nat) (hf : w.faults = []) :
    (createPackageRecord w info version fileName pkgRemark pkgID now).2.faults = []
      ∧ (createPackageRecord w info version fileName pkgRemark pkgID now).2.store.apps = w.store.apps
      ∧ (createPackageRecord w info version fileName pkgRemark pkgID now).2.store.versions
          = w.store.versions
      ∧ (createPackageRecord w info version fileName pkgRemark pkgID now).2.aliases = w.aliases
      ∧ (createPackageRecord w info version fileName pkgRemark pkgID now).2.log
          = w.log ++ [Query.insertPackage
              { ID := pkgID, VersionID := version.ID, Name := fileName, Size := info.Size,
                CreatedAt := now, Remark := pkgRemark }] := by
  simp only [createPackageRecord]
  rw [dbInsertPackage_healthy w _ hf]
  by_cases h : w.store.packages.any (fun p => decide (p.ID = pkgID)) = true
  · simp [h, hf]
  · by_cases h2 : w.store.versions.any (fun v => decide (v.ID = version.ID)) = true
    · simp [h, h2, hf]
    · simp [h, h2, hf]

/-- One call of createPackage for a manifest whose App row exists, on a
healthy engine: the call returns, the app table is as before, the engine is
still healthy, and the statements issued start with the App lookup and the
Version lookup for the id of the row found. -/
theorem createPackage_app_found (w : World) (info : AppInfo)
    (fileName versionRemark pkgRemark pkgID : String) (nowVersion nowPkg : Nat) (row : App)
    (hf : w.faults = [])
    (hrow : w.store.apps.find?
      (fun a => decide (a.BundleID = info.BundleID ∧ a.Platform = info.Platform)) = some row) :
    ∃ r w1 tail,
      createPackage w info fileName versionRemark pkgRemark pkgID nowVersion nowPkg = some (r, w1)
        ∧ w1.store.apps = w.store.apps
        ∧ w1.faults = []
        ∧ w1.log = w.log ++ Query.selectApp info.BundleID info.Platform
            :: Query.selectVersion info.FullVersion row.ID :: tail := by
  unfold createPackage
  rw [fetchApp_found w info row hf hrow]
  dsimp only
  have hf1 : ({ w with log := w.log ++ [Query.selectApp info.BundleID info.Platform] } :
      World).faults = [] := hf
  obtain ⟨h1, h2, -, -, tail, h5⟩ := fetchVersion_healthy_frame
    { w with log := w.log ++ [Query.selectApp info.BundleID info.Platform] }
    info row versionRemark nowVersion hf1
  rcases hfv : fetchVersion
    { w with log := w.log ++ [Query.selectApp info.BundleID info.Platform] }
    info row versionRemark nowVersion with ⟨res, w2⟩
  rw [hfv] at h1 h2 h5
  dsimp only at h1 h2 h5
  cases res with
  | error err =>
    refine ⟨_, _, tail, rfl, h2, h1, ?_⟩
    rw [h5]
    simp
  | ok version =>
    obtain ⟨g1, g2, -, -, g5⟩ :=
      createPackageRecord_healthy_frame w2 info version fileName pkgRemark pkgID nowPkg h1
    refine ⟨(createPackageRecord w2 info version fileName pkgRemark pkgID nowPkg).1,
      (createPackageRecord w2 info version fileName pkgRemark pkgID nowPkg).2,
      tail ++ [Query.insertPackage
        { ID := pkgID, VersionID := version.ID, Name := fileName, Size := info.Size,
          CreatedAt := nowPkg, Remark := pkgRemark }], rfl, g2.trans h2, g1, ?_⟩
    rw [g5, h5]
    simp

theorem ensureInsertAppLoop_frame :
    ∀ (l : List String) (w : World) (app : App) (e : Option Error) (app1 : App) (w1 : World),
      w.faults = [] → ensureInsertAppLoop l w app = some (e, app1, w1) →
      w1.faults = [] ∧ w1.store.versions = w.store.versions
        ∧ w1.store.packages = w.store.packages ∧ app1.ID = app.ID := by
  intro l
  induction l with
  | nil =>
    intro w app e app1 w1 _ h
    simp [ensureInsertAppLoop] at h
  | cons a rest ih =>
    intro w app e app1 w1 hf h
    rw [ensureInsertAppLoop_cons] at h
    obtain ⟨-, -, g3, g4, g5⟩ := insertApp_frame { w with aliases := rest } { app with Alias := a }
    rcases hins : insertApp { w with aliases := rest } { app with Alias := a } with ⟨r, w2⟩
    rw [hins] at h g3 g4 g5
    have hf2 : w2.faults = [] := by
      rw [g3]
      show w.faults.tail = []
      rw [hf]
      rfl
    cases r with
    | none =>
      simp only [Option.some.injEq, Prod.mk.injEq] at h
      obtain ⟨-, h2, h3⟩ := h
      subst h2 h3
      exact ⟨hf2, g4, g5, rfl⟩
    | some err =>
      dsimp only at h
      split at h
      · obtain ⟨k1, k2, k3, k4⟩ := ih w2 _ e app1 w1 hf2 h
        exact ⟨k1, k2.trans g4, k3.trans g5, k4⟩
      · simp only [Option.some.injEq, Prod.mk.injEq] at h
        obtain ⟨-, h2, h3⟩ := h
        subst h2 h3
        exact ⟨hf2, g4, g5, rfl⟩

theorem fetchApp_healthy_frame (w : World) (info : AppInfo) (r : Except Error App) (w1 : World)
    (hf : w.faults = []) (h : fetchApp w info = some (r, w1)) :
    w1.faults = [] ∧ w1.store.versions = w.store.versions
      ∧ w1.store.packages = w.store.packages := by
  unfold fetchApp at h
  rw [dbGetApp_healthy w _ _ hf] at h
  cases hfind : w.store.apps.find?
      (fun a => decide (a.BundleID = info.BundleID ∧ a.Platform = info.Platform)) with
  | some row =>
    rw [hfind] at h
    simp only [Option.some.injEq, Prod.mk.injEq] at h
    obtain ⟨-, h2⟩ := h
    subst h2
    exact ⟨hf, rfl, rfl⟩
  | none =>
    rw [hfind] at h
    simp only [if_true] at h
    unfold ensureInsertApp at h
    split at h
    · cases h
    · rename_i err1 app2 w2 heq
      simp only [Option.some.injEq, Prod.mk.injEq] at h
      obtain ⟨-, h2⟩ := h
      subst h2
      obtain ⟨k1, k2, k3, -⟩ := ensureInsertAppLoop_frame _
        { w with log := w.log ++ [Query.selectApp info.BundleID info.Platform] } _ _ _ _ hf heq
      exact ⟨k1, k2, k3⟩
    · rename_i app2 w2 heq
      simp only [Option.some.injEq, Prod.mk.injEq] at h
      obtain ⟨-, h2⟩ := h
      subst h2
      obtain ⟨k1, k2, k3, -⟩ := ensureInsertAppLoop_frame _
        { w with log := w.log ++ [Query.selectApp info.BundleID info.Platform] } _ _ _ _ hf heq
      exact ⟨k1, k2, k3⟩

/-! ## App and Version resolution -/

/-- C2, idempotent App resolution.  On a healthy engine, when the app table
holds a row for the (bundle_id, platform) of the manifest, createPackage
returns, the App record it works with is a row of the table with that
(bundle_id, platform), the Version lookup it issues carries the id of that
row, and the app table is exactly as before; a second call, on the state the
first one left, with any manifest of the same (bundle_id, platform), works
with the same row and again leaves the app table as it was. -/
theorem createPackage_app_resolution_idempotent (w : World) (info info2 : AppInfo)
    (fileName versionRemark pkgRemark pkgID : String) (nowVersion nowPkg : Nat)
    (fileName2 versionRemark2 pkgRemark2 pkgID2 : String) (nowVersion2 nowPkg2 : Nat)
    (hf : w.faults = [])
    (hex : ∃ a ∈ w.store.apps, a.BundleID = info.BundleID ∧ a.Platform = info.Platform)
    (hb : info2.BundleID = info.BundleID) (hp : info2.Platform = info.Platform) :
    ∃ row r1 w1 tail1 r2 w2 tail2,
      row ∈ w.store.apps ∧ row.BundleID = info.BundleID ∧ row.Platform = info.Platform
        ∧ (fetchApp w info).map Prod.fst = some (Except.ok row)
        ∧ createPackage w info fileName versionRemark pkgRemark pkgID nowVersion nowPkg
            = some (r1, w1)
        ∧ w1.store.apps = w.store.apps
        ∧ w1.log = w.log ++ Query.selectApp info.BundleID info.Platform
            :: Query.selectVersion info.FullVersion row.ID :: tail1
        ∧ (fetchApp w1 info2).map Prod.fst = some (Except.ok row)
        ∧ createPackage w1 info2 fileName2 versionRemark2 pkgRemark2 pkgID2 nowVersion2 nowPkg2
            = some (r2, w2)
        ∧ w2.store.apps = w.store.apps
        ∧ w2.log = w1.log ++ Query.selectApp info2.BundleID info2.Platform
            :: Query.selectVersion info2.FullVersion row.ID :: tail2 := by
  have hsome : (w.store.apps.find?
      (fun a => decide (a.BundleID = info.BundleID ∧ a.Platform = info.Platform))).isSome = true := by
    rw [List.find?_isSome]
    obtain ⟨a, ha, hab⟩ := hex
    exact ⟨a, ha, by simpa using hab⟩
  obtain ⟨row, hrow⟩ := Option.isSome_iff_exists.mp hsome
  have hmem := List.mem_of_find?_eq_some hrow
  have hmatch := List.find?_some hrow
  simp only [decide_eq_true_eq] at hmatch
  obtain ⟨r1, w1, tail1, c1, c2, c3, c4⟩ := createPackage_app_found w info fileName versionRemark
    pkgRemark pkgID nowVersion nowPkg row hf hrow
  have hrow2 : w1.store.apps.find?
      (fun a => decide (a.BundleID = info2.BundleID ∧ a.Platform = info2.Platform)) = some row := by
    rw [c2, hb, hp]
    exact hrow
  obtain ⟨r2, w2, tail2, e1, e2, -, e4⟩ := createPackage_app_found w1 info2 fileName2
    versionRemark2 pkgRemark2 pkgID2 nowVersion2 nowPkg2 row c3 hrow2
  refine ⟨row, r1, w1, tail1, r2, w2, tail2, hmem, hmatch.1, hmatch.2, ?_, c1, c2, c4, ?_, e1,
    e2.trans c2, e4⟩
  · rw [fetchApp_found w info row hf hrow]
    rfl
  · rw [fetchApp_found w1 info2 row c3 hrow2]
    rfl

/-- Witness for C2: two uploads for the App already stored under id 1. -/
theorem createPackage_app_resolution_idempotent_witness :
    ∃ row r1 w1 tail1 r2 w2 tail2,
      row ∈ uploadedWorld.store.apps ∧ row.BundleID = manifestXY.BundleID
        ∧ row.Platform = manifestXY.Platform
        ∧ (fetchApp uploadedWorld manifestXY).map Prod.fst = some (Except.ok row)
        ∧ createPackage uploadedWorld manifestXY "b.ipa" "second" "" "pkg-b" 7000000000 7000000001
            = some (r1, w1)
        ∧ w1.store.apps = uploadedWorld.store.apps
        ∧ w1.log = uploadedWorld.log ++ Query.selectApp manifestXY.BundleID manifestXY.Platform
            :: Query.selectVersion manifestXY.FullVersion row.ID :: tail1
        ∧ (fetchApp w1 manifestXY).map Prod.fst = some (Except.ok row)
        ∧ createPackage w1 manifestXY "c.ipa" "third" "" "pkg-c" 9000000000 9000000001
            = some (r2, w2)
        ∧ w2.store.apps = uploadedWorld.store.apps
        ∧ w2.log = w1.log ++ Query.selectApp manifestXY.BundleID manifestXY.Platform
            :: Query.selectVersion manifestXY.FullVersion row.ID :: tail2 :=
  createPackage_app_resolution_idempotent uploadedWorld manifestXY manifestXY
    "b.ipa" "second" "" "pkg-b" 7000000000 7000000001
    "c.ipa" "third" "" "pkg-c" 9000000000 9000000001
    rfl (by decide) rfl rfl

theorem createPackageRecord_ok (w : World) (info : AppInfo) (version : Version)
    (fileName pkgRemark pkgID : String) (now : Nat) (pkg : Package)
    (h : (createPackageRecord w info version fileName pkgRemark pkgID now).1 = Except.ok pkg) :
    pkg = { ID := pkgID, VersionID := version.ID, Name := fileName, Size := info.Size,
            CreatedAt := now, Remark := pkgRemark } := by
  simp only [createPackageRecord] at h
  split at h
  · cases h
  · simp only [Except.ok.injEq] at h
    exact h.symm

/-- One call of createPackage on a healthy engine, when the Version table
holds a row for the version string of the manifest and the id of the App
record in use: no Version is inserted, and the Package is built for the id of
the first such row. -/
theorem createPackage_version_found (w : World) (info : AppInfo)
    (fileName versionRemark pkgRemark pkgID : String) (nowVersion nowPkg : Nat)
    (app : App) (w1 : World) (v : Version)
    (hf : w.faults = [])
    (happ : fetchApp w info = some (Except.ok app, w1))
    (hv : w.store.versions.find?
      (fun x => decide (x.Version = info.FullVersion ∧ x.AppID = app.ID)) = some v) :
    ∃ r w2,
      createPackage w info fileName versionRemark pkgRemark pkgID nowVersion nowPkg = some (r, w2)
        ∧ w2.store.versions = w.store.versions
        ∧ w2.faults = []
        ∧ w2.log = w1.log ++ [Query.selectVersion info.FullVersion app.ID,
            Query.insertPackage
              { ID := pkgID, VersionID := v.ID, Name := fileName, Size := info.Size,
                CreatedAt := nowPkg, Remark := pkgRemark }]
        ∧ ∀ pkg, r = Except.ok pkg → pkg.VersionID = v.ID := by
  obtain ⟨f1, f2, -⟩ := fetchApp_healthy_frame w info _ w1 hf happ
  have hv1 : w1.store.versions.find?
      (fun x => decide (x.Version = info.FullVersion ∧ x.AppID = app.ID)) = some v := by
    rw [f2]
    exact hv
  unfold createPackage
  rw [happ]
  dsimp only
  rw [fetchVersion_found w1 info app versionRemark nowVersion v f1 hv1]
  dsimp only
  obtain ⟨g1, -, g3, -, g5⟩ := createPackageRecord_healthy_frame
    { w1 with log := w1.log ++ [Query.selectVersion info.FullVersion app.ID] }
    info v fileName pkgRemark pkgID nowPkg f1
  refine ⟨(createPackageRecord { w1 with log := w1.log ++ [Query.selectVersion info.FullVersion app.ID] }
      info v fileName pkgRemark pkgID nowPkg).1,
    (createPackageRecord { w1 with log := w1.log ++ [Query.selectVersion info.FullVersion app.ID] }
      info v fileName pkgRemark pkgID nowPkg).2, rfl, g3.trans f2, g1, ?_, ?_⟩
  · rw [g5]
    simp
  · intro pkg hpkg
    rw [createPackageRecord_ok _ _ _ _ _ _ _ pkg hpkg]

theorem deletePackage_healthy (w : World) (id : String) (hf : w.faults = []) :
    deletePackage w id
      = (none, { w with
          store := { w.store with packages := w.store.packages.filter (fun p => decide (p.ID ≠ id)) }
          log := w.log ++ [Query.deletePackage id] }) := by
  unfold deletePackage dbDeletePackage
  rw [issue_healthy w _ hf]

/-- C10, deletion idempotence.  On a healthy engine deletePackage(id) returns
no error, whether or not a Package row has that id; the app and version tables
are as before and the package table is the old one without the rows of that
id, every other row kept in place; when no row has that id the three tables
are unchanged; and a second deletePackage(id) right after the first returns no
error and leaves the tables as the first one left them. -/
theorem deletePackage_idempotent (w : World) (id : String) (hf : w.faults = []) :
    (deletePackage w id).1 = none
      ∧ (deletePackage w id).2.store.apps = w.store.apps
      ∧ (deletePackage w id).2.store.versions = w.store.versions
      ∧ (deletePackage w id).2.store.packages
          = w.store.packages.filter (fun p => decide (p.ID ≠ id))
      ∧ (∀ p, p ∈ (deletePackage w id).2.store.packages ↔ p ∈ w.store.packages ∧ p.ID ≠ id)
      ∧ ((∀ p ∈ w.store.packages, p.ID ≠ id) → (deletePackage w id).2.store = w.store)
      ∧ (deletePackage (deletePackage w id).2 id).1 = none
      ∧ (deletePackage (deletePackage w id).2 id).2.store = (deletePackage w id).2.store := by
  have h1 := deletePackage_healthy w id hf
  have h2 := deletePackage_healthy (deletePackage w id).2 id (by rw [h1]; exact hf)
  refine ⟨by rw [h1], by rw [h1], by rw [h1], by rw [h1], ?_, ?_, by rw [h2], ?_⟩
  · intro p
    rw [h1]
    simp [List.mem_filter]
  · intro hno
    rw [h1]
    have hfilter : w.store.packages.filter (fun p => decide (p.ID ≠ id)) = w.store.packages := by
      rw [List.filter_eq_self]
      intro p hp
      simpa using hno p hp
    simp only [hfilter]
  · rw [h2, h1]
    simp [List.filter_filter]

/-- Witness for C10: deleting "pkg-b" keeps "pkg-a" and "pkg-c", and deleting
it again changes nothing. -/
theorem deletePackage_idempotent_witness :
    (deletePackage threePackagesWorld "pkg-b").1 = none
      ∧ (deletePackage threePackagesWorld "pkg-b").2.store.packages
          = [{ ID := "pkg-a", VersionID := 1, Name := "a.ipa", Size := 1000, CreatedAt := 5 },
             { ID := "pkg-c", VersionID := 1, Name := "c.ipa", Size := 1000, CreatedAt := 9 }]
      ∧ (deletePackage (deletePackage threePackagesWorld "pkg-b").2 "pkg-b").2.store
          = (deletePackage threePackagesWorld "pkg-b").2.store :=
  ⟨(deletePackage_idempotent threePackagesWorld "pkg-b" rfl).1, by decide,
    (deletePackage_idempotent threePackagesWorld "pkg-b" rfl).2.2.2.2.2.2.2⟩

/-! ## Listing the versions of an App -/

/-- On a healthy engine getAppDetailedVersions returns the projections of
exactly the Version rows of that app, in the order of the version table; it
orders nothing and changes no table. -/
theorem getAppDetailedVersions_healthy (w : World) (appID : Nat) (hf : w.faults = []) :
    getAppDetailedVersions w appID
      = (Except.ok ((w.store.versions.filter (fun v => decide (v.AppID = appID))).map
            toDetailVersion),
          { w with log := w.log ++ [Query.selectDetailVersions appID] }) := by
  have hmap : ∀ vs : List Version,
      (vs.map toDetailVersion).filter (fun d => decide (d.AppID = appID))
        = (vs.filter (fun v => decide (v.AppID = appID))).map toDetailVersion := by
    intro vs
    induction vs with
    | nil => rfl
    | cons v vs ih =>
      by_cases hv : v.AppID = appID
      · simp [List.filter_cons, toDetailVersion, hv] at ih ⊢
        exact ih
      · simp [List.filter_cons, toDetailVersion, hv] at ih ⊢
        exact ih
  unfold getAppDetailedVersions dbSelectDetailVersions detailVersionView
  rw [issue_healthy w _ hf]
  dsimp only
  rw [hmap]

theorem nextID_pos (ids : List Nat) : nextID ids ≠ 0 := by
  unfold nextID
  exact Nat.succ_ne_zero _

/-- The block "fetch app" for a manifest with no App row, on a healthy engine
whose randomStr returns N taken aliases and then a fresh one: one row is
appended under a generated id, which is not 0, and the App record handed to
the rest of createPackage has the id 0. -/
theorem fetchApp_new_app_id_zero (w : World) (info : AppInfo)
    (taken : List String) (fresh : String) (rest : List String)
    (hf : w.faults = [])
    (hnone : ∀ a ∈ w.store.apps, ¬ (a.BundleID = info.BundleID ∧ a.Platform = info.Platform))
    (ha : w.aliases = taken ++ fresh :: rest)
    (htaken : ∀ a ∈ taken, ∃ r ∈ w.store.apps, r.Alias = a)
    (hfresh : ∀ r ∈ w.store.apps, r.Alias ≠ fresh) :
    ∃ w1, fetchApp w info
        = some (Except.ok { ID := 0, Alias := fresh, Name := info.Name, Platform := info.Platform,
                            BundleID := info.BundleID }, w1)
      ∧ w1.store.apps = w.store.apps ++
          [{ ID := nextID (w.store.apps.map App.ID), Alias := fresh, Name := info.Name,
             Platform := info.Platform, BundleID := info.BundleID }]
      ∧ nextID (w.store.apps.map App.ID) ≠ 0 := by
  have hfind : w.store.apps.find?
      (fun a => decide (a.BundleID = info.BundleID ∧ a.Platform = info.Platform)) = none := by
    rw [List.find?_eq_none]
    intro a hmem
    simpa using hnone a hmem
  unfold fetchApp
  rw [dbGetApp_healthy w _ _ hf, hfind]
  simp only [if_true]
  unfold ensureInsertApp
  have hloop := ensureInsertAppLoop_converges fresh rest taken
    { w with aliases := taken ++ fresh :: rest
             log := w.log ++ [Query.selectApp info.BundleID info.Platform] }
    { Name := info.Name, Platform := info.Platform, BundleID := info.BundleID } hf htaken hfresh
  rw [show ({ w with log := w.log ++ [Query.selectApp info.BundleID info.Platform] } :
      World).aliases = taken ++ fresh :: rest from ha, hloop]
  exact ⟨_, rfl, rfl, nextID_pos _⟩

/-- C1, evaluated on empty tables.  The call persists exactly one App row,
with the name, platform and bundle_id of the manifest and the generated id 1;
the App record the call goes on with still has id 0, since insertApp drops the
result of the insert: the Version lookup and the Version insert both carry
app_id 0, not 1, and the insert is rejected by the foreign key to app. -/
theorem createPackage_new_app_keeps_zero_id :
    createPackage emptyWorld manifestXY "a.ipa" "" "" "pkg-a" 5000000000 5000000001
      = some (Except.error (Error.wrap foreignKeyFailed "could not insert version"),
          { store :=
              { apps := [{ ID := 1, Alias := "k3Qz", Name := "X", Platform := "ios",
                           BundleID := "com.x.y" }] }
            faults := []
            aliases := []
            log := [Query.selectApp "com.x.y" "ios",
                    Query.insertApp { ID := 0, Alias := "k3Qz", Name := "X", Platform := "ios",
                                      BundleID := "com.x.y" },
                    Query.selectVersion "1.2.3(45)" 0,
                    Query.insertVersion
                      { ID := 0, Version := "1.2.3(45)", AppID := 0, IOSShortVersion := "1.2.3",
                        IOSBundleVersion := "45", SortKey := 5, Remark := "" }] }) := by
  rfl

/-! ## A package id that is taken -/

theorem fetchVersion_healthy_ok (w : World) (info : AppInfo) (app : App)
    (versionRemark : String) (now : Nat) (hf : w.faults = [])
    (happ : w.store.apps.any (fun a => decide (a.ID = app.ID)) = true) :
    ∃ v, (fetchVersion w info app versionRemark now).1 = Except.ok v := by
  unfold fetchVersion
  rw [dbGetVersion_healthy w _ _ hf]
  cases w.store.versions.find?
      (fun v => decide (v.Version = info.FullVersion ∧ v.AppID = app.ID)) with
  | some v => exact ⟨v, rfl⟩
  | none =>
    simp only [if_true]
    rw [dbInsertVersion_healthy _ _ (show ({ w with
      log := w.log ++ [Query.selectVersion info.FullVersion app.ID] } : World).faults = [] from hf)]
    simp [happ]

/-- One call of createPackage with a package id that is taken, for a manifest
whose App row exists, on a healthy engine: the call returns the primary key
error of the package insert, wrapped with its context; the package table is
as before; and after the Version block the only statement issued is the one
Package insert. -/
theorem createPackage_taken_id_existing_app (w : World) (info : AppInfo)
    (fileName versionRemark pkgRemark pkgID : String) (nowVersion nowPkg : Nat) (row : App)
    (hf : w.faults = [])
    (hrow : w.store.apps.find?
      (fun a => decide (a.BundleID = info.BundleID ∧ a.Platform = info.Platform)) = some row)
    (htaken : ∃ p ∈ w.store.packages, p.ID = pkgID) :
    ∃ v w2 w3,
      fetchVersion { w with log := w.log ++ [Query.selectApp info.BundleID info.Platform] }
          info row versionRemark nowVersion = (Except.ok v, w2)
        ∧ createPackage w info fileName versionRemark pkgRemark pkgID nowVersion nowPkg
          = some (Except.error
              (Error.wrap (primaryKeyFailed "package.id") "could not insert package"), w3)
        ∧ w3.store.packages = w.store.packages
        ∧ w3.log = w2.log ++ [Query.insertPackage
            { ID := pkgID, VersionID := v.ID, Name := fileName, Size := info.Size,
              CreatedAt := nowPkg, Remark := pkgRemark }] := by
  have hmem := List.mem_of_find?_eq_some hrow
  have hany : ({ w with log := w.log ++ [Query.selectApp info.BundleID info.Platform] } :
      World).store.apps.any (fun a => decide (a.ID = row.ID)) = true := by
    rw [List.any_eq_true]
    exact ⟨row, hmem, by simp⟩
  have hf1 : ({ w with log := w.log ++ [Query.selectApp info.BundleID info.Platform] } :
      World).faults = [] := hf
  obtain ⟨v, hv⟩ := fetchVersion_healthy_ok _ info row versionRemark nowVersion hf1 hany
  obtain ⟨h1, -, h3, -, -⟩ := fetchVersion_healthy_frame _ info row versionRemark nowVersion hf1
  rcases hfv : fetchVersion
    { w with log := w.log ++ [Query.selectApp info.BundleID info.Platform] }
    info row versionRemark nowVersion with ⟨res, w2⟩
  rw [hfv] at hv h1 h3
  dsimp only at hv h1 h3
  subst hv
  have htaken2 : w2.store.packages.any (fun p => decide (p.ID = pkgID)) = true := by
    rw [h3, List.any_eq_true]
    obtain ⟨p, hp, hpid⟩ := htaken
    exact ⟨p, hp, by simpa using hpid⟩
  refine ⟨v, w2, { w2 with log := w2.log ++ [Query.insertPackage
      { ID := pkgID, VersionID := v.ID, Name := fileName, Size := info.Size,
        CreatedAt := nowPkg, Remark := pkgRemark }] }, rfl, ?_, h3, rfl⟩
  unfold createPackage
  rw [fetchApp_found w info row hf hrow]
  dsimp only
  rw [hfv]
  simp only [createPackageRecord]
  rw [dbInsertPackage_healthy w2 _ h1]
  simp [htaken2]

/-- C6, evaluated where the package id "pkg-a" is taken and the manifest names
an App not yet stored.  The call ends at the Version insert with the foreign
key error, the Package insert is never issued, and the error returned is not
the uniqueness error of the package table; the package table is unchanged. -/
theorem createPackage_taken_id_new_app_fails_before_package_insert :
    (createPackage secondAppWorld manifestB "b.apk" "" "" "pkg-a" 7000000000 7000000001).map
        (fun x => (x.1, x.2.store.packages, x.2.log))
      = some (Except.error (Error.wrap foreignKeyFailed "could not insert version"),
          secondAppWorld.store.packages,
          [Query.selectApp "com.b" "android",
           Query.insertApp { ID := 0, Alias := "Zq9a", Name := "B", Platform := "android",
                             BundleID := "com.b" },
           Query.selectVersion "2.0(7)" 0,
           Query.insertVersion
             { ID := 0, Version := "2.0(7)", AppID := 0, AndroidVersionCode := "7",
               AndroidVersionName := "2.0", SortKey := 7, Remark := "" }]) := by
  rfl

/-! ## A Version created by one call and found by the next -/

theorem fetchVersion_created (w : World) (info : AppInfo) (app : App) (versionRemark : String)
    (now : Nat) (hf : w.faults = [])
    (hany : w.store.apps.any (fun a => decide (a.ID = app.ID)) = true)
    (hnov : w.store.versions.find?
      (fun x => decide (x.Version = info.FullVersion ∧ x.AppID = app.ID)) = none) :
    ∃ v1 w2, fetchVersion w info app versionRemark now = (Except.ok v1, w2)
      ∧ v1 = { ID := nextID (w.store.versions.map Version.ID)
               Version := info.FullVersion
               AppID := app.ID
               AndroidVersionCode := info.AndroidVersionCode
               AndroidVersionName := info.AndroidVersionName
               IOSShortVersion := info.IOSShortVersion
               IOSBundleVersion := info.IOSBundleVersion
               SortKey := unixSeconds now
               Remark := versionRemark }
      ∧ w2.store.versions = w.store.versions ++ [v1]
      ∧ w2.store.apps = w.store.apps
      ∧ w2.faults = [] := by
  unfold fetchVersion
  rw [dbGetVersion_healthy w _ _ hf]
  simp only [hnov, if_true]
  rw [dbInsertVersion_healthy _ _ (show ({ w with
    log := w.log ++ [Query.selectVersion info.FullVersion app.ID] } : World).faults = [] from hf)]
  simp only [hany, if_true]
  exact ⟨_, _, rfl, rfl, rfl, rfl, hf⟩

/-- Two calls in a row for an App that is stored and a version string that is
not, on a healthy engine: the first call appends one Version row, with its
remark; the second call, whatever its remark, leaves the Version table as the
first one left it, and both Packages are built for the id of that row. -/
theorem createPackage_version_created_then_found (w : World) (info : AppInfo)
    (fileName versionRemark pkgRemark pkgID : String) (nowVersion nowPkg : Nat)
    (fileName2 versionRemark2 pkgRemark2 pkgID2 : String) (nowVersion2 nowPkg2 : Nat)
    (row : App)
    (hf : w.faults = [])
    (hrow : w.store.apps.find?
      (fun a => decide (a.BundleID = info.BundleID ∧ a.Platform = info.Platform)) = some row)
    (hnov : w.store.versions.find?
      (fun x => decide (x.Version = info.FullVersion ∧ x.AppID = row.ID)) = none) :
    ∃ r1 w1 r2 w2,
      createPackage w info fileName versionRemark pkgRemark pkgID nowVersion nowPkg = some (r1, w1)
        ∧ w1.store.versions = w.store.versions ++
            [{ ID := nextID (w.store.versions.map Version.ID)
               Version := info.FullVersion
               AppID := row.ID
               AndroidVersionCode := info.AndroidVersionCode
               AndroidVersionName := info.AndroidVersionName
               IOSShortVersion := info.IOSShortVersion
               IOSBundleVersion := info.IOSBundleVersion
               SortKey := unixSeconds nowVersion
               Remark := versionRemark }]
        ∧ (∀ pkg, r1 = Except.ok pkg → pkg.VersionID = nextID (w.store.versions.map Version.ID))
        ∧ createPackage w1 info fileName2 versionRemark2 pkgRemark2 pkgID2 nowVersion2 nowPkg2
            = some (r2, w2)
        ∧ w2.store.versions = w1.store.versions
        ∧ (∀ pkg, r2 = Except.ok pkg → pkg.VersionID = nextID (w.store.versions.map Version.ID)) := by
  have hmem := List.mem_of_find?_eq_some hrow
  have hany : w.store.apps.any (fun a => decide (a.ID = row.ID)) = true := by
    rw [List.any_eq_true]
    exact ⟨row, hmem, by simp⟩
  obtain ⟨v1, wv, hfv, hv1, hwv, hwa, hwf⟩ := fetchVersion_created
    { w with log := w.log ++ [Query.selectApp info.BundleID info.Platform] }
    info row versionRemark nowVersion hf hany hnov
  have hv1id : v1.ID = nextID (w.store.versions.map Version.ID) := by rw [hv1]
  have hv1match : v1.Version = info.FullVersion ∧ v1.AppID = row.ID := by
    rw [hv1]
    exact ⟨rfl, rfl⟩
  obtain ⟨g1, g2, g3, -, -⟩ := createPackageRecord_healthy_frame wv info v1 fileName pkgRemark pkgID
    nowPkg hwf
  have hcall1 : createPackage w info fileName versionRemark pkgRemark pkgID nowVersion nowPkg
      = some ((createPackageRecord wv info v1 fileName pkgRemark pkgID nowPkg).1,
          (createPackageRecord wv info v1 fileName pkgRemark pkgID nowPkg).2) := by
    unfold createPackage
    rw [fetchApp_found w info row hf hrow]
    dsimp only
    rw [hfv]
  have hrow1 : (createPackageRecord wv info v1 fileName pkgRemark pkgID nowPkg).2.store.apps.find?
      (fun a => decide (a.BundleID = info.BundleID ∧ a.Platform = info.Platform)) = some row := by
    rw [g2, hwa]
    exact hrow
  have hfind1 : (createPackageRecord wv info v1 fileName pkgRemark pkgID nowPkg).2.store.versions.find?
      (fun x => decide (x.Version = info.FullVersion ∧ x.AppID = row.ID)) = some v1 := by
    rw [g3, hwv]
    show (w.store.versions ++ [v1]).find? _ = some v1
    rw [List.find?_append, hnov]
    simp [hv1match]
  obtain ⟨r2, w2, e1, e2, -, -, e5⟩ := createPackage_version_found
    (createPackageRecord wv info v1 fileName pkgRemark pkgID nowPkg).2 info fileName2 versionRemark2
    pkgRemark2 pkgID2 nowVersion2 nowPkg2 row _ v1 g1 (fetchApp_found _ info row g1 hrow1) hfind1
  refine ⟨_, _, r2, w2, hcall1, ?_, ?_, e1, e2, ?_⟩
  · rw [g3, hwv, hv1]
  · intro pkg hpkg
    rw [createPackageRecord_ok _ _ _ _ _ _ _ pkg hpkg, hv1id]
  · intro pkg hpkg
    rw [e5 pkg hpkg, hv1id]

/-! ## Failures of the storage engine -/

theorem issue_scheduled (w : World) (q : Query) (f : Option Error) (fs : List (Option Error))
    (h : w.faults = f :: fs) :
    w.issue q = (f, { w with faults := fs, log := w.log ++ [q] }) := by
  simp [World.issue, h]

/-- A failure of the Package insert is returned by createPackage's last
block, wrapped with its context. -/
theorem createPackageRecord_failure_returned (w : World) (info : AppInfo) (version : Version)
    (fileName pkgRemark pkgID : String) (now : Nat) (e : Error) (fs : List (Option Error))
    (h : w.faults = some e :: fs) :
    createPackageRecord w info version fileName pkgRemark pkgID now
      = (Except.error (Error.wrap e "could not insert package"),
          { w with
            faults := fs
            log := w.log ++ [Query.insertPackage
              { ID := pkgID, VersionID := version.ID, Name := fileName, Size := info.Size,
                CreatedAt := now, Remark := pkgRemark }] }) := by
  simp [createPackageRecord, dbInsertPackage, World.issue, h]

/-- A failure of the Version insert, after a lookup that found no row, is
returned by the Version block, wrapped with its context, and createPackage
ends there. -/
theorem fetchVersion_insert_failure_returned (w : World) (info : AppInfo) (app : App)
    (versionRemark : String) (now : Nat) (e : Error) (fs : List (Option Error))
    (h : w.faults = none :: some e :: fs)
    (hnov : w.store.versions.find?
      (fun x => decide (x.Version = info.FullVersion ∧ x.AppID = app.ID)) = none) :
    ∃ w1, fetchVersion w info app versionRemark now
        = (Except.error (Error.wrap e "could not insert version"), w1)
      ∧ w1.faults = fs ∧ w1.store = w.store := by
  unfold fetchVersion dbGetVersion
  rw [issue_scheduled w _ none (some e :: fs) h]
  simp only [hnov, if_true]
  unfold dbInsertVersion
  rw [issue_scheduled _ _ (some e) fs rfl]
  exact ⟨_, rfl, rfl, rfl⟩

/-- A failure of the App insert that is not an alias collision, after a
lookup that found no row, is returned by the App block, wrapped with its
context, after the one attempt. -/
theorem fetchApp_insert_failure_returned (w : World) (info : AppInfo) (a : String)
    (rest : List String) (e : Error) (fs : List (Option Error))
    (h : w.faults = none :: some e :: fs)
    (ha : w.aliases = a :: rest)
    (hnot : isAppAliasUniqueError e = false)
    (hnone : w.store.apps.find?
      (fun x => decide (x.BundleID = info.BundleID ∧ x.Platform = info.Platform)) = none) :
    ∃ w1, fetchApp w info = some (Except.error (Error.wrap e "could not insert app"), w1)
      ∧ w1.faults = fs ∧ w1.store = w.store ∧ w1.aliases = rest := by
  unfold fetchApp dbGetApp
  rw [issue_scheduled w _ none (some e :: fs) h]
  simp only [hnone, if_true]
  unfold ensureInsertApp
  rw [show ({ w with faults := some e :: fs
                     log := w.log ++ [Query.selectApp info.BundleID info.Platform] } :
    World).aliases = a :: rest from ha, ensureInsertAppLoop_cons]
  unfold insertApp dbInsertApp
  rw [issue_scheduled _ _ (some e) fs rfl]
  simp only [hnot]
  exact ⟨_, rfl, rfl, rfl, rfl⟩

/-- C7, evaluated with a failing engine.  When the Version lookup fails with a
disk error, createPackage does not return that error: it goes on with a zero
Version, issues the Package insert for version_id 0, and returns the foreign
key error of that insert.  When the lookup of getPackage fails with a disk
error on empty tables, getPackage returns a zero Package, not nil. -/
theorem createPackage_and_getPackage_swallow_lookup_failure :
    (createPackage failingLookupWorld manifestXY "b.ipa" "" "" "pkg-b" 7000000000
          7000000001).map (fun x => (x.1, x.2.log))
        = some (Except.error (Error.wrap foreignKeyFailed "could not insert package"),
            [Query.selectApp "com.x.y" "ios",
             Query.selectVersion "1.2.3(45)" 1,
             Query.insertPackage { ID := "pkg-b", VersionID := 0, Name := "b.ipa", Size := 1000,
                                   CreatedAt := 7000000001, Remark := "" }])
      ∧ (getPackage failingReadWorld "pkg-a").1 = some {}
      ∧ failingReadWorld.store.packages = [] := by
  refine ⟨?_, ?_, ?_⟩ <;> rfl

/-! ## The upload scenario -/

/-- C8, evaluated.  From empty tables the first upload returns an error and
leaves 1 App, 0 Versions and 0 Packages; the second upload then succeeds and
adds 1 Version and 1 Package, so the tables hold 1 App, 1 Version and 1
Package, and getVersionPackages for that Version returns the one package
"b.ipa", not two. -/
theorem createPackage_upload_scenario_first_call_fails :
    scenarioFirst.map (fun x => (succeeded x.1, x.2.store.counts)) = some (false, 1, 0, 0)
      ∧ scenarioFirst.map (fun x => x.1)
          = some (Except.error (Error.wrap foreignKeyFailed "could not insert version"))
      ∧ scenarioSecond.map (fun x => (succeeded x.1, x.2.store.counts)) = some (true, 1, 1, 1)
      ∧ scenarioSecond.map (fun x => packageNames (getVersionPackages x.2 1).1)
          = some (some ["b.ipa"]) := by
  refine ⟨?_, ?_, ?_, ?_⟩ <;> rfl

end AppHub
